import Mathlib

/-!
Verification of the agent-protocol coordination core against its source.

The embedding translates `src/core/state-manager.ts` and the event-store
portion of `src/core/types.ts` into Lean:

* A JavaScript `Map` is an insertion-ordered association list with unique
  keys (`JsMap`); `Map.get`, `Map.set`, `Map.delete` become `mapGet`,
  `mapSet`, `mapDelete`.
* `Date.now()` and the filesystem hash read by `hashFile` are inputs of
  each call, bundled in `Env` (`now`, `fileHash`); the random `nanoid`
  suffix used for task and handoff ids is the `fresh` field.  Random event
  ids are not modelled (no property depends on them).
* The mutable `StateManager` fields (the four collections, the
  `config.lead_agent` pointer) together with the event store contents form
  `SMState`; each public operation is a function `Env -> SMState -> ... ->
  SMState × result` following the source statement by statement.
-/

namespace AgentProtocol

/-- Insertion-ordered association list, the model of a JavaScript `Map`. -/
abbrev JsMap (α : Type) := List (String × α)

/-- Model of `Map.get`: first binding of the key, if any. -/
def mapGet {α : Type} (m : JsMap α) (k : String) : Option α :=
  match m with
  | [] => none
  | (k2, v) :: rest => if k2 = k then some v else mapGet rest k

/-- Model of `Map.set`: overwrite in place if the key is present, else append. -/
def mapSet {α : Type} (m : JsMap α) (k : String) (v : α) : JsMap α :=
  match m with
  | [] => [(k, v)]
  | (k2, v2) :: rest => if k2 = k then (k, v) :: rest else (k2, v2) :: mapSet rest k v

/-- Model of `Map.delete`: remove the binding of the key. -/
def mapDelete {α : Type} (m : JsMap α) (k : String) : JsMap α :=
  match m with
  | [] => []
  | (k2, v2) :: rest => if k2 = k then rest else (k2, v2) :: mapDelete rest k

/-- JavaScript truthiness of a nullable string (`null` and `""` are falsy). -/
def truthyStr (o : Option String) : Bool :=
  match o with
  | none => false
  | some s => s != ""

/-- JavaScript truthiness of a nullable number (`null` and `0` are falsy). -/
def truthyNat (o : Option Nat) : Bool :=
  match o with
  | none => false
  | some n => n != 0

-- ─── Data model (src/core/types.ts) ─────────────────────────────────────

inductive AgentRole where
  | lead | specialist | worker
deriving DecidableEq, Repr

inductive AgentStatus where
  | idle | working | blocked | waiting_review | offline
deriving DecidableEq, Repr

structure Agent where
  id : String
  tool : String
  role : AgentRole
  status : AgentStatus
  current_task : Option String
  capabilities : List String
  joined_at : Nat
  last_heartbeat : Nat
deriving DecidableEq, Repr

inductive ResourceState where
  | free | claimed | locked | conflicted
deriving DecidableEq, Repr

structure Resource where
  path : String
  state : ResourceState
  owner : Option String
  claimed_at : Option Nat
  last_modified_by : Option String
  content_hash : String
deriving DecidableEq, Repr

structure ClaimResult where
  granted : Bool
  owner : Option String := none
  reason : Option String := none
deriving DecidableEq, Repr

inductive TaskStatus where
  | queued | assigned | in_progress | review | done | blocked
deriving DecidableEq, Repr

structure Task where
  id : String
  title : String
  description : String
  assigned_to : Option String
  assigned_by : String
  status : TaskStatus
  resources : List String
  depends_on : List String
  created_at : Nat
  started_at : Option Nat
  completed_at : Option Nat
deriving DecidableEq, Repr

inductive HandoffStatus where
  | pending | accepted | rejected
deriving DecidableEq, Repr

structure Handoff where
  id : String
  from_agent : String
  to_agent : Option String
  task_id : String
  status : HandoffStatus
  summary : String
  files_modified : List String
  files_created : List String
  context : String
  blockers : List String
  created_at : Nat
deriving DecidableEq, Repr

inductive EventAction where
  | agent_joined | agent_left | agent_heartbeat | agent_status_changed
  | resource_claimed | resource_released | resource_modified
  | resource_conflict_detected | resource_conflict_resolved
  | task_created | task_assigned | task_started | task_completed | task_blocked
  | handoff_initiated | handoff_accepted | handoff_rejected
  | authority_decision | authority_escalation
deriving DecidableEq, Repr

/-- The dotted string tag stored in the `action` column of the log. -/
def actionStr (a : EventAction) : String :=
  match a with
  | .agent_joined => "agent.joined"
  | .agent_left => "agent.left"
  | .agent_heartbeat => "agent.heartbeat"
  | .agent_status_changed => "agent.status_changed"
  | .resource_claimed => "resource.claimed"
  | .resource_released => "resource.released"
  | .resource_modified => "resource.modified"
  | .resource_conflict_detected => "resource.conflict_detected"
  | .resource_conflict_resolved => "resource.conflict_resolved"
  | .task_created => "task.created"
  | .task_assigned => "task.assigned"
  | .task_started => "task.started"
  | .task_completed => "task.completed"
  | .task_blocked => "task.blocked"
  | .handoff_initiated => "handoff.initiated"
  | .handoff_accepted => "handoff.accepted"
  | .handoff_rejected => "handoff.rejected"
  | .authority_decision => "authority.decision"
  | .authority_escalation => "authority.escalation"

/-- A value in the open `metadata` map of an event. -/
inductive MetaVal where
  | str (s : String)
  | num (n : Int)
  | strList (xs : List String)
  | optStr (o : Option String)
  | boolV (b : Bool)
deriving DecidableEq, Repr

/-- One event record; `id` (a random nanoid) is not modelled. -/
structure ProtocolEvent where
  timestamp : Nat
  agent_id : String
  action : EventAction
  resource : Option String := none
  task_id : Option String := none
  before_hash : Option String := none
  after_hash : Option String := none
  metadata : List (String × MetaVal) := []
deriving DecidableEq, Repr

def roleStr (r : AgentRole) : String :=
  match r with
  | .lead => "lead"
  | .specialist => "specialist"
  | .worker => "worker"

def statusStr (s : AgentStatus) : String :=
  match s with
  | .idle => "idle"
  | .working => "working"
  | .blocked => "blocked"
  | .waiting_review => "waiting_review"
  | .offline => "offline"

def taskStatusStr (s : TaskStatus) : String :=
  match s with
  | .queued => "queued"
  | .assigned => "assigned"
  | .in_progress => "in_progress"
  | .review => "review"
  | .done => "done"
  | .blocked => "blocked"

/-- String interpolation of a nullable string (JS prints `null`). -/
def ownerDisplay (o : Option String) : String :=
  match o with
  | some s => s
  | none => "null"

-- ─── Call environment ───────────────────────────────────────────────────

/-- Ambient inputs of one operation call: the clock, the filesystem content
hash read by `hashFile`, and the `nanoid` value used for fresh ids. -/
structure Env where
  now : Nat
  fileHash : String → String
  fresh : String

/-- The mutable state of a `StateManager` plus its event store contents. -/
structure SMState where
  agents : JsMap Agent
  resources : JsMap Resource
  tasks : JsMap Task
  handoffs : JsMap Handoff
  lead_agent : Option String
  dead_agent_timeout_ms : Nat
  log : List ProtocolEvent

/-- Model of `eventStore.append`: the event goes to the end of the log. -/
def appendEvent (s : SMState) (e : ProtocolEvent) : SMState :=
  { s with log := s.log ++ [e] }

-- ─── Agent operations (state-manager.ts lines 35-197) ───────────────────

/-- The agent record built at the top of `registerAgent` (lines 41-50). -/
def freshAgent (env : Env) (id tool : String) (role : AgentRole)
    (capabilities : List String) : Agent :=
  { id := id, tool := tool, role := role, status := .idle,
    current_task := none, capabilities := capabilities,
    joined_at := env.now, last_heartbeat := env.now }

/-- Prefix of `registerAgent` up to (not including) the `eventStore.append` call:
insert the agent, then, if `config.lead_agent` is falsy and the map now has
exactly one entry, force the role to lead and record the lead pointer
(lines 41-58).  This is also the state observable if the append throws,
since the source has no rollback. -/
def registerAgentMutate (env : Env) (s : SMState) (id tool : String)
    (role : AgentRole) (capabilities : List String) : SMState × Agent :=
  let agent0 := freshAgent env id tool role capabilities
  let agents1 := mapSet s.agents id agent0
  let forced := !(truthyStr s.lead_agent) && agents1.length == 1
  let agent1 := if forced then { agent0 with role := .lead } else agent0
  let agents2 := if forced then mapSet agents1 id agent1 else agents1
  let lead1 := if forced then some id else s.lead_agent
  ({ s with agents := agents2, lead_agent := lead1 }, agent1)

/-- Model of `registerAgent` (lines 35-71): mutate, then append `agent.joined`. -/
def registerAgent (env : Env) (s : SMState) (id tool : String)
    (role : AgentRole) (capabilities : List String) : SMState × Agent :=
  let (s1, agent1) := registerAgentMutate env s id tool role capabilities
  (appendEvent s1
    { timestamp := env.now, agent_id := id, action := .agent_joined,
      metadata := [("tool", .str agent1.tool), ("role", .str (roleStr agent1.role)),
                   ("capabilities", .strList agent1.capabilities)] },
   agent1)

/-- The `resource.released` event appended by `releaseResource`. -/
def releasedEvent (env : Env) (path agentId : String) : ProtocolEvent :=
  { timestamp := env.now, agent_id := agentId, action := .resource_released,
    resource := some path, after_hash := some (env.fileHash path) }

/-- Model of `releaseResource` (lines 280-300): false if the path is unknown or the
caller is not the recorded owner; otherwise free the resource, refresh the
hash, record the modifier, and append `resource.released`. -/
def releaseResource (env : Env) (s : SMState) (path agentId : String) :
    SMState × Bool :=
  match mapGet s.resources path with
  | none => (s, false)
  | some resource =>
    -- source: `if (resource.owner !== agentId) return false;`
    if resource.owner == some agentId then
      let hash := env.fileHash path
      let r2 := { resource with
                    state := .free, owner := none,
                    claimed_at := none, last_modified_by := some agentId,
                    content_hash := hash }
      (appendEvent { s with resources := mapSet s.resources path r2 }
        (releasedEvent env path agentId), true)
    else (s, false)

/-- The `for (const [path, resource] of this.resources)` loop in
`removeAgent` (lines 78-82): iterate the keys in insertion order and
release each resource whose current owner is the departing agent. -/
def releaseOwnedLoop (env : Env) (agentId : String) (paths : List String)
    (s : SMState) : SMState :=
  match paths with
  | [] => s
  | p :: rest =>
    let s1 :=
      match mapGet s.resources p with
      | some r => if r.owner == some agentId then (releaseResource env s p agentId).1 else s
      | none => s
    releaseOwnedLoop env agentId rest s1

/-- The `agent.left` event appended by `removeAgent`. -/
def leftEvent (env : Env) (agentId : String) : ProtocolEvent :=
  { timestamp := env.now, agent_id := agentId, action := .agent_left }

/-- Comparator of `promoteLead` (lines 141-145): specialists first, then by
ascending `joined_at`. -/
def leadCmp (a b : Agent) : Int :=
  if a.role = .specialist ∧ b.role ≠ .specialist then -1
  else if b.role = .specialist ∧ a.role ≠ .specialist then 1
  else (a.joined_at : Int) - (b.joined_at : Int)

/-- Stable insertion step of `Array.prototype.sort` with `leadCmp`. -/
def leadInsert (x : Agent) (l : List Agent) : List Agent :=
  match l with
  | [] => [x]
  | y :: ys => if leadCmp y x < 0 then y :: leadInsert x ys else x :: y :: ys

/-- Stable sort with `leadCmp` (JavaScript `sort` is stable). -/
def leadSort (l : List Agent) : List Agent :=
  match l with
  | [] => []
  | x :: xs => leadInsert x (leadSort xs)

/-- Model of `promoteLead` (lines 137-164): among non-offline agents, pick the first
of the sorted candidate list, make it the lead and append an
`authority.decision` event; with no candidate, clear the lead pointer. -/
def promoteLead (env : Env) (s : SMState) : SMState :=
  let candidates := leadSort (((s.agents.map Prod.snd)).filter (fun a => a.status != .offline))
  match candidates with
  | [] => { s with lead_agent := none }
  | newLead :: _ =>
    let s1 := { s with
                  agents := mapSet s.agents newLead.id { newLead with role := .lead },
                  lead_agent := some newLead.id }
    appendEvent s1
      { timestamp := env.now, agent_id := "system", action := .authority_decision,
        metadata := [("type", .str "lead_promotion"), ("new_lead", .str newLead.id),
                     ("reason", .str "previous_lead_departed")] }

/-- Model of `removeAgent` (lines 73-95): no-op if unknown; else release every
resource owned by the agent, delete it, append `agent.left`, and promote a
new lead if the departing agent was the recorded lead. -/
def removeAgent (env : Env) (s : SMState) (agentId : String) : SMState :=
  match mapGet s.agents agentId with
  | none => s
  | some _ =>
    let s1 := releaseOwnedLoop env agentId (s.resources.map Prod.fst) s
    let s2 := { s1 with agents := mapDelete s1.agents agentId }
    let s3 := appendEvent s2 (leftEvent env agentId)
    if s3.lead_agent == some agentId then promoteLead env s3 else s3

/-- Model of `heartbeat` (lines 97-107). -/
def heartbeat (env : Env) (s : SMState) (agentId : String) : SMState :=
  match mapGet s.agents agentId with
  | none => s
  | some agent =>
    let s1 := { s with agents := mapSet s.agents agentId { agent with last_heartbeat := env.now } }
    appendEvent s1 { timestamp := env.now, agent_id := agentId, action := .agent_heartbeat }

/-- Model of `updateAgentStatus` (lines 109-122): the old status is saved before the
assignment, so the event metadata carries the true previous status. -/
def updateAgentStatus (env : Env) (s : SMState) (agentId : String)
    (status : AgentStatus) : SMState :=
  match mapGet s.agents agentId with
  | none => s
  | some agent =>
    let oldStatus := agent.status
    let agent2 := { agent with status := status, last_heartbeat := env.now }
    let s1 := { s with agents := mapSet s.agents agentId agent2 }
    appendEvent s1
      { timestamp := env.now, agent_id := agentId, action := .agent_status_changed,
        metadata := [("from", .str (statusStr oldStatus)), ("to", .str (statusStr status))] }

/-- The per-agent body of the `checkDeadAgents` sweep (lines 173-189).  In
the source, `agent.status = offline` executes before the metadata object
literal is evaluated, so the `from` field reads the already-updated
status. -/
def deadSweep (env : Env) (ids : List String) (acc : SMState × List String) :
    SMState × List String :=
  match ids with
  | [] => acc
  | id :: rest =>
    let s := acc.1
    let dead := acc.2
    let acc2 :=
      match mapGet s.agents id with
      | none => (s, dead)
      | some agent =>
        if (env.now : Int) - (agent.last_heartbeat : Int) > (s.dead_agent_timeout_ms : Int) then
          let agent2 := { agent with status := AgentStatus.offline }
          let s1 := { s with agents := mapSet s.agents id agent2 }
          let s2 := appendEvent s1
            { timestamp := env.now, agent_id := "system", action := .agent_status_changed,
              metadata := [("agent", .str id),
                           ("from", .str (statusStr agent2.status)),
                           ("to", .str "offline"),
                           ("reason", .str "heartbeat_timeout")] }
          (s2, dead ++ [id])
        else (s, dead)
    deadSweep env rest acc2

/-- Model of `checkDeadAgents` (lines 169-197): sweep all agents, then promote if
the (truthy) recorded lead is among the newly dead. -/
def checkDeadAgents (env : Env) (s : SMState) : SMState × List String :=
  let swept := deadSweep env (s.agents.map Prod.fst) (s, [])
  let s1 := swept.1
  let dead := swept.2
  let s2 :=
    if truthyStr s1.lead_agent && dead.contains (s1.lead_agent.getD "") then
      promoteLead env s1
    else s1
  (s2, dead)

-- ─── Resource operations (state-manager.ts lines 201-364) ───────────────

/-- Model of `claimResource` (lines 201-278). -/
def claimResource (env : Env) (s : SMState) (path agentId : String)
    (taskId : Option String) : SMState × ClaimResult :=
  match mapGet s.agents agentId with
  | none => (s, { granted := false, reason := some "Agent not registered" })
  | some _ =>
    match mapGet s.resources path with
    | none =>
      -- new resource: auto-create and grant
      let hash := env.fileHash path
      let newResource : Resource :=
        { path := path, state := .claimed, owner := some agentId,
          claimed_at := some env.now, last_modified_by := none, content_hash := hash }
      let s1 := { s with resources := mapSet s.resources path newResource }
      (appendEvent s1
        { timestamp := env.now, agent_id := agentId, action := .resource_claimed,
          resource := some path, task_id := taskId,
          metadata := [("initial_claim", .boolV true)] },
       { granted := true })
    | some resource =>
      match resource.state with
      | .free =>
        let r2 := { resource with
                      state := .claimed, owner := some agentId,
                      claimed_at := some env.now }
        let s1 := { s with resources := mapSet s.resources path r2 }
        (appendEvent s1
          { timestamp := env.now, agent_id := agentId, action := .resource_claimed,
            resource := some path, task_id := taskId },
         { granted := true })
      | .claimed =>
        if resource.owner == some agentId then
          (s, { granted := true })
        else
          (s, { granted := false, owner := resource.owner,
                reason := some ("Resource claimed by " ++ ownerDisplay resource.owner) })
      | .locked =>
        (s, { granted := false, owner := resource.owner,
              reason := some ("Resource locked by lead agent (" ++ ownerDisplay resource.owner ++ ")") })
      | .conflicted =>
        (s, { granted := false,
              reason := some "Resource is in conflict state — resolve conflict first" })

/-- Model of `lockResource` (lines 302-323): only the recorded lead may lock; the
resource is created locked or overwritten to locked.  The source appends
no event in this operation. -/
def lockResource (env : Env) (s : SMState) (path agentId : String) :
    SMState × Bool :=
  if s.lead_agent == some agentId then
    match mapGet s.resources path with
    | none =>
      let resource : Resource :=
        { path := path, state := .locked, owner := some agentId,
          claimed_at := some env.now, last_modified_by := none,
          content_hash := env.fileHash path }
      ({ s with resources := mapSet s.resources path resource }, true)
    | some resource =>
      let r2 := { resource with state := .locked, owner := some agentId }
      ({ s with resources := mapSet s.resources path r2 }, true)
  else (s, false)

/-- Model of `detectConflict` (lines 328-348): the guard
`resource.owner && resource.owner !== modifyingAgent` is rendered by
matching the owner and testing it non-empty and distinct from the
modifier.  The owner field is left untouched by the transition. -/
def detectConflict (env : Env) (s : SMState) (path modifyingAgent : String) :
    SMState :=
  match mapGet s.resources path with
  | none => s
  | some resource =>
    match resource.owner with
    | none => s
    | some ownerId =>
      if ownerId != "" && ownerId != modifyingAgent then
        let r2 := { resource with state := .conflicted }
        let s1 := { s with resources := mapSet s.resources path r2 }
        appendEvent s1
          { timestamp := env.now, agent_id := "system",
            action := .resource_conflict_detected, resource := some path,
            before_hash := some resource.content_hash,
            after_hash := some (env.fileHash path),
            metadata := [("agents_involved", .strList [ownerId, modifyingAgent]),
                         ("previous_owner", .str ownerId),
                         ("intruder", .str modifyingAgent)] }
      else s

inductive Resolution where
  | pick_a | pick_b | merge | reassign
deriving DecidableEq, Repr

def resolutionStr (r : Resolution) : String :=
  match r with
  | .pick_a => "pick_a"
  | .pick_b => "pick_b"
  | .merge => "merge"
  | .reassign => "reassign"

/-- Model of `resolveConflict` (lines 350-364): no-op unless the resource is
currently conflicted; frees it and appends `resource.conflict_resolved`. -/
def resolveConflict (env : Env) (s : SMState) (path : String)
    (resolution : Resolution) (resolvedBy : String) : SMState :=
  match mapGet s.resources path with
  | none => s
  | some resource =>
    if resource.state == .conflicted then
      let r2 := { resource with
                    state := .free, owner := none,
                    content_hash := env.fileHash path }
      let s1 := { s with resources := mapSet s.resources path r2 }
      appendEvent s1
        { timestamp := env.now, agent_id := resolvedBy,
          action := .resource_conflict_resolved, resource := some path,
          metadata := [("resolution", .str (resolutionStr resolution))] }
    else s

-- ─── Task operations (state-manager.ts lines 384-447) ───────────────────

/-- Model of `createTask` (lines 384-416); the task id is `task_` plus a nanoid,
modelled by `env.fresh`. -/
def createTask (env : Env) (s : SMState) (title description : String)
    (assigned_to : Option String) (assigned_by : String)
    (resources depends_on : List String) : SMState × Task :=
  let task : Task :=
    { id := "task_" ++ env.fresh, title := title, description := description,
      assigned_to := assigned_to, assigned_by := assigned_by,
      status := if truthyStr assigned_to then .assigned else .queued,
      resources := resources, depends_on := depends_on,
      created_at := env.now, started_at := none, completed_at := none }
  let s1 := { s with tasks := mapSet s.tasks task.id task }
  (appendEvent s1
    { timestamp := env.now, agent_id := assigned_by, action := .task_created,
      task_id := some task.id,
      metadata := [("title", .str task.title), ("assigned_to", .optStr task.assigned_to)] },
   task)

/-- Model of `updateTaskStatus` (lines 418-447); `!task.started_at` is falsy for
both null and 0. -/
def updateTaskStatus (env : Env) (s : SMState) (taskId : String)
    (status : TaskStatus) (agentId : String) : SMState × Bool :=
  match mapGet s.tasks taskId with
  | none => (s, false)
  | some task =>
    let oldStatus := task.status
    let t1 := { task with status := status }
    let t2 := if status == .in_progress && !(truthyNat task.started_at) then
                { t1 with started_at := some env.now } else t1
    let t3 := if status == .done then { t2 with completed_at := some env.now } else t2
    let actionTag : EventAction :=
      match status with
      | .in_progress => .task_started
      | .done => .task_completed
      | .blocked => .task_blocked
      | .assigned => .task_assigned
      | _ => .task_started
    let s1 := { s with tasks := mapSet s.tasks taskId t3 }
    (appendEvent s1
      { timestamp := env.now, agent_id := agentId, action := actionTag,
        task_id := some taskId,
        metadata := [("from", .str (taskStatusStr oldStatus)),
                     ("to", .str (taskStatusStr status))] },
     true)

-- ─── Handoff operations (state-manager.ts lines 459-529) ────────────────

/-- Model of `createHandoff` (lines 459-497). -/
def createHandoff (env : Env) (s : SMState) (from_agent : String)
    (to_agent : Option String) (task_id summary : String)
    (files_modified files_created : List String) (context : String)
    (blockers : List String) : SMState × Handoff :=
  let handoff : Handoff :=
    { id := "hoff_" ++ env.fresh, from_agent := from_agent, to_agent := to_agent,
      task_id := task_id, status := .pending, summary := summary,
      files_modified := files_modified, files_created := files_created,
      context := context, blockers := blockers, created_at := env.now }
  let s1 := { s with handoffs := mapSet s.handoffs handoff.id handoff }
  (appendEvent s1
    { timestamp := env.now, agent_id := from_agent, action := .handoff_initiated,
      task_id := some task_id,
      metadata := [("handoff_id", .str handoff.id), ("to_agent", .optStr handoff.to_agent),
                   ("files_count", .num ((handoff.files_modified.length : Int) + (handoff.files_created.length : Int)))] },
   handoff)

/-- Model of `acceptHandoff` (lines 499-513). -/
def acceptHandoff (env : Env) (s : SMState) (handoffId agentId : String) :
    SMState × Bool :=
  match mapGet s.handoffs handoffId with
  | none => (s, false)
  | some handoff =>
    if handoff.status == .pending then
      let s1 := { s with handoffs := mapSet s.handoffs handoffId { handoff with status := .accepted } }
      (appendEvent s1
        { timestamp := env.now, agent_id := agentId, action := .handoff_accepted,
          task_id := some handoff.task_id,
          metadata := [("handoff_id", .str handoffId)] }, true)
    else (s, false)

/-- Model of `rejectHandoff` (lines 515-529). -/
def rejectHandoff (env : Env) (s : SMState) (handoffId agentId reasonText : String) :
    SMState × Bool :=
  match mapGet s.handoffs handoffId with
  | none => (s, false)
  | some handoff =>
    if handoff.status == .pending then
      let s1 := { s with handoffs := mapSet s.handoffs handoffId { handoff with status := .rejected } }
      (appendEvent s1
        { timestamp := env.now, agent_id := agentId, action := .handoff_rejected,
          task_id := some handoff.task_id,
          metadata := [("handoff_id", .str handoffId), ("reason", .str reasonText)] }, true)
    else (s, false)

-- ─── Operation sequences and reachability ───────────────────────────────

/-- One public `StateManager` call together with its call environment. -/
inductive Op where
  | register (env : Env) (id tool : String) (role : AgentRole) (capabilities : List String)
  | remove (env : Env) (id : String)
  | beat (env : Env) (id : String)
  | setStatus (env : Env) (id : String) (status : AgentStatus)
  | sweep (env : Env)
  | claim (env : Env) (path agentId : String) (taskId : Option String)
  | release (env : Env) (path agentId : String)
  | lock (env : Env) (path agentId : String)
  | detect (env : Env) (path modifyingAgent : String)
  | resolve (env : Env) (path : String) (resolution : Resolution) (resolvedBy : String)
  | newTask (env : Env) (title description : String) (assigned_to : Option String)
      (assigned_by : String) (resources depends_on : List String)
  | setTaskStatus (env : Env) (taskId : String) (status : TaskStatus) (agentId : String)
  | newHandoff (env : Env) (from_agent : String) (to_agent : Option String)
      (task_id summary : String) (files_modified files_created : List String)
      (context : String) (blockers : List String)
  | accept (env : Env) (handoffId agentId : String)
  | reject (env : Env) (handoffId agentId reasonText : String)

/-- The state transformation of one call (results discarded). -/
def exec (s : SMState) (op : Op) : SMState :=
  match op with
  | .register env id tool role caps => (registerAgent env s id tool role caps).1
  | .remove env id => removeAgent env s id
  | .beat env id => heartbeat env s id
  | .setStatus env id status => updateAgentStatus env s id status
  | .sweep env => (checkDeadAgents env s).1
  | .claim env path agentId taskId => (claimResource env s path agentId taskId).1
  | .release env path agentId => (releaseResource env s path agentId).1
  | .lock env path agentId => (lockResource env s path agentId).1
  | .detect env path modifyingAgent => detectConflict env s path modifyingAgent
  | .resolve env path resolution resolvedBy => resolveConflict env s path resolution resolvedBy
  | .newTask env title description assigned_to assigned_by resources depends_on =>
      (createTask env s title description assigned_to assigned_by resources depends_on).1
  | .setTaskStatus env taskId status agentId => (updateTaskStatus env s taskId status agentId).1
  | .newHandoff env from_agent to_agent task_id summary fm fc context blockers =>
      (createHandoff env s from_agent to_agent task_id summary fm fc context blockers).1
  | .accept env handoffId agentId => (acceptHandoff env s handoffId agentId).1
  | .reject env handoffId agentId reasonText => (rejectHandoff env s handoffId agentId reasonText).1

/-- Run a sequence of calls. -/
def run (s : SMState) (ops : List Op) : SMState :=
  ops.foldl exec s

/-- The empty projection: fresh `StateManager` with a null lead pointer and
an empty event store (`DEFAULT_CONFIG.lead_agent` is null). -/
def initState (timeout : Nat) : SMState :=
  { agents := [], resources := [], tasks := [], handoffs := [],
    lead_agent := none, dead_agent_timeout_ms := timeout, log := [] }

-- ─── Event store query (types.ts event-store section, lines 268-314) ────

/-- The optional filters of `EventStore.query`; the `action` filter is the
string stored in the database column. -/
structure QueryFilters where
  agent_id : Option String := none
  action : Option String := none
  resource : Option String := none
  since : Option Nat := none
  limit : Option Nat := none

/-- The WHERE clause built by `query`: a condition is added only when the
corresponding filter value is truthy; a `resource` condition never matches
a stored NULL. -/
def rowMatches (f : QueryFilters) (e : ProtocolEvent) : Bool :=
  (if truthyStr f.agent_id then e.agent_id == f.agent_id.getD "" else true) &&
  (if truthyStr f.action then actionStr e.action == f.action.getD "" else true) &&
  (if truthyStr f.resource then e.resource == some (f.resource.getD "") else true) &&
  (if truthyNat f.since then decide (f.since.getD 0 ≤ e.timestamp) else true)

/-- Insertion step of the `ORDER BY timestamp DESC` sort. -/
def insertDescByTs (e : ProtocolEvent) (l : List ProtocolEvent) : List ProtocolEvent :=
  match l with
  | [] => [e]
  | x :: xs => if e.timestamp ≤ x.timestamp then x :: insertDescByTs e xs else e :: x :: xs

/-- Model of `ORDER BY timestamp DESC` (ties keep log order). -/
def sortDescByTs (l : List ProtocolEvent) : List ProtocolEvent :=
  match l with
  | [] => []
  | x :: xs => insertDescByTs x (sortDescByTs xs)

/-- Model of `EventStore.query` (lines 268-314): filter, sort newest first, and cap
at `filters.limit ?? 1000` (nullish coalescing, so an explicit 0 stands). -/
def query (events : List ProtocolEvent) (f : QueryFilters) : List ProtocolEvent :=
  (sortDescByTs (events.filter (rowMatches f))).take (f.limit.getD 1000)

-- ─── Association-list lemmas ────────────────────────────────────────────

theorem mapGet_mapSet {α : Type} (m : JsMap α) (k k2 : String) (v : α) :
    mapGet (mapSet m k v) k2 = if k2 = k then some v else mapGet m k2 := by
  induction m with
  | nil =>
    simp only [mapSet, mapGet]
    by_cases h : k = k2
    · subst h; simp
    · rw [if_neg h, if_neg (fun h2 => h h2.symm)]
  | cons kv rest ih =>
    obtain ⟨k3, v3⟩ := kv
    simp only [mapSet]
    by_cases h3 : k3 = k
    · subst h3
      simp only [mapGet]
      by_cases h : k3 = k2
      · subst h; simp
      · simp only [if_neg h, if_neg (fun h2 : k2 = k3 => h h2.symm)]
    · rw [if_neg h3]
      simp only [mapGet]
      by_cases h : k3 = k2
      · subst h
        rw [if_pos rfl, if_neg (fun h2 : k3 = k => h3 h2), if_pos rfl]
      · rw [if_neg h, ih]
        by_cases hk : k2 = k <;> simp [hk, if_neg h]

theorem mapSet_ne_nil {α : Type} (m : JsMap α) (k : String) (v : α) :
    mapSet m k v ≠ [] := by
  cases m with
  | nil => simp [mapSet]
  | cons kv rest =>
    obtain ⟨k3, v3⟩ := kv
    by_cases h : k3 = k <;> simp [mapSet, h]

theorem mapSet_singleton_of_length_one {α : Type} (m : JsMap α) (k : String) (v : α)
    (h : (mapSet m k v).length = 1) : mapSet m k v = [(k, v)] := by
  cases m with
  | nil => rfl
  | cons kv rest =>
    obtain ⟨k3, v3⟩ := kv
    by_cases h3 : k3 = k
    · simp only [mapSet, if_pos h3] at h ⊢
      have h0 : rest.length = 0 := by simpa using h
      have h1 : rest = [] := List.length_eq_zero.mp h0
      simp [h1]
    · exfalso
      simp only [mapSet, if_neg h3] at h
      have h1 := mapSet_ne_nil rest k v
      cases h2 : mapSet rest k v with
      | nil => exact h1 h2
      | cons a l => rw [h2] at h; simp at h

theorem mapGet_mem_keys {α : Type} (m : JsMap α) (p : String) (r : α)
    (h : mapGet m p = some r) : p ∈ m.map Prod.fst := by
  induction m with
  | nil => simp [mapGet] at h
  | cons kv rest ih =>
    obtain ⟨k3, v3⟩ := kv
    by_cases h3 : k3 = p
    · subst h3; simp
    · simp only [mapGet, if_neg h3] at h
      simp [ih h]

-- ─── Concrete scenarios used by counterexamples and witnesses ───────────

/-- A call environment with clock value `n`, every tracked file hashing to
`"h"`, and nanoid `"id1"`. -/
def envAt (n : Nat) : Env := { now := n, fileHash := fun _ => "h", fresh := "id1" }

/-- Register `a1` (requesting worker; promoted to lead as sole agent). -/
def soloLeadOps : List Op := [.register (envAt 0) "a1" "claude-code" .worker []]

def soloLeadState : SMState := run (initState 60000) soloLeadOps

/-- Register `a1` then `a2` where `a2` requests role lead. -/
def twoLeadOps : List Op :=
  [.register (envAt 0) "a1" "claude-code" .worker [],
   .register (envAt 0) "a2" "cursor" .lead []]

/-- No caller requests role lead here: `a1` (auto-promoted) goes dead while
`a2` keeps its heartbeat, so the sweep promotes `a2` to lead while the
offline `a1` stays registered with role lead. -/
def sweepPromotedOps : List Op :=
  [.register (envAt 0) "a1" "claude-code" .worker [],
   .register (envAt 0) "a2" "cursor" .specialist [],
   .beat (envAt 50000) "a2",
   .sweep (envAt 60001)]

/-- The call is a `registerAgent` call that requests role lead. -/
def requestsLeadRole (op : Op) : Bool :=
  match op with
  | .register _ _ _ role _ => role == AgentRole.lead
  | _ => false

/-- Scenario: `a1` becomes lead, `a2` joins, `a2` claims `x.ts`, the watcher reports
a modification of `x.ts` by `a1`: the resource ends conflicted. -/
def conflictedOps : List Op :=
  [.register (envAt 0) "a1" "claude-code" .worker [],
   .register (envAt 0) "a2" "cursor" .worker [],
   .claim (envAt 0) "x.ts" "a2" none,
   .detect (envAt 0) "x.ts" "a1"]

def conflictedState : SMState := run (initState 60000) conflictedOps

/-- Scenario: `a1` is auto-promoted to lead, then goes dead: the sweep marks it
offline and the promotion pass clears the lead pointer (no candidate). -/
def noLeadOps : List Op :=
  [.register (envAt 0) "a1" "claude-code" .worker [], .sweep (envAt 60001)]

def noLeadState : SMState := run (initState 60000) noLeadOps

/-- Scenario: `a1` set to working, then swept dead after the 60000 ms timeout. -/
def deadSweepOps : List Op :=
  [.register (envAt 0) "a1" "claude-code" .worker [],
   .setStatus (envAt 0) "a1" .working,
   .sweep (envAt 60001)]

def deadSweepState : SMState := run (initState 60000) deadSweepOps

/-- Scenario: `a1` registered and owning the two resources `f1` and `f2`. -/
def twoClaimsOps : List Op :=
  [.register (envAt 0) "a1" "claude-code" .worker [],
   .claim (envAt 1) "f1" "a1" none,
   .claim (envAt 2) "f2" "a1" none]

def twoClaimsState : SMState := run (initState 60000) twoClaimsOps

-- ─── C10: falsy query filters ───────────────────────────────────────────

/-- Claim C10: `EventStore.query` ignores any filter whose value is falsy —
with `agent_id`, `action` or `resource` equal to `""`, or `since` equal to
0, the result is the same as omitting the filter entirely — while
`limit: 0` is honored (nullish coalescing) and yields the empty list. -/
theorem query_ignores_falsy_filters (events : List ProtocolEvent) :
    query events { agent_id := some "" } = query events {} ∧
    query events { action := some "" } = query events {} ∧
    query events { resource := some "" } = query events {} ∧
    query events { since := some 0 } = query events {} ∧
    query events { limit := some 0 } = [] :=
  ⟨rfl, rfl, rfl, rfl, rfl⟩

-- ─── C2: projection is mutated before the durable append ────────────────

/-- The projection visible at the instant `registerAgent` reaches its
`eventStore.append` call, starting from the empty state: if the append
throws there, this is the state the caller observes, because the source
mutates the maps first and has no rollback. -/
def regFailState : SMState :=
  (registerAgentMutate (envAt 0) (initState 60000) "a1" "claude-code" .worker []).1

/-- Claim C2 (code bug): a failing append does not leave the projection
unchanged.  Before the append of `registerAgent` runs, the agent is
already in the agents map and the lead pointer is already set, while the
log is still empty — so an append failure leaves a projection not
derivable from the log, contrary to the stated atomicity. -/
theorem registerAgent_mutates_before_append :
    mapGet regFailState.agents "a1" =
      some { freshAgent (envAt 0) "a1" "claude-code" .worker [] with role := .lead } ∧
    regFailState.lead_agent = some "a1" ∧
    regFailState.log = [] ∧
    mapGet (initState 60000).agents "a1" = none :=
  ⟨rfl, rfl, rfl, rfl⟩

-- ─── C3: lockResource appends no event ──────────────────────────────────

/-- Claim C3 (code bug): `lockResource` by the recorded lead returns true
and creates the resource in state locked, yet appends nothing to the event
log — contradicting both the claim and the source file's own header
("All state mutations go through the event store first"). -/
theorem lockResource_appends_no_event :
    (lockResource (envAt 1) soloLeadState "f.ts" "a1").2 = true ∧
    (mapGet (lockResource (envAt 1) soloLeadState "f.ts" "a1").1.resources "f.ts").map
        Resource.state = some .locked ∧
    mapGet soloLeadState.resources "f.ts" = none ∧
    (lockResource (envAt 1) soloLeadState "f.ts" "a1").1.log = soloLeadState.log :=
  ⟨rfl, rfl, rfl, rfl⟩

-- ─── C8: the dead-agent event records from = offline ────────────────────

/-- The prefix of the C8 scenario: `a1` is working before the sweep. -/
def preSweepState : SMState :=
  run (initState 60000) [.register (envAt 0) "a1" "claude-code" .worker [],
                         .setStatus (envAt 0) "a1" .working]

/-- Claim C8 (code bug): on the sweep, the agent whose pre-transition
status was `working` gets an `agent.status_changed` event whose metadata
records `from = "offline"` — the source assigns `agent.status = offline`
before building the metadata object — instead of the status immediately
before the transition. -/
theorem checkDeadAgents_from_field_is_offline :
    (mapGet preSweepState.agents "a1").map Agent.status = some .working ∧
    deadSweepState.log.getLast? = some
      { timestamp := 60001, agent_id := "system", action := .agent_status_changed,
        metadata := [("agent", .str "a1"), ("from", .str "offline"),
                     ("to", .str "offline"), ("reason", .str "heartbeat_timeout")] } ∧
    statusStr .working ≠ "offline" :=
  ⟨rfl, rfl, by decide⟩

-- ─── C4: number of agents holding role lead ─────────────────────────────

/-- The number of registered agents whose role is lead. -/
def leadRoleCount (m : JsMap Agent) : Nat :=
  (m.filter (fun pa => pa.2.role == AgentRole.lead)).length

/-- Claim C4 counterexample, in two parts.  First, after registering `a1`
(auto-promoted) and `a2` with requested role lead, two distinct registered
agents both hold role lead — `registerAgent` honors any requested role
when the agent map is not a fresh singleton.  Second, even with no caller
ever requesting role lead, the dead-agent sweep promotes a successor while
the offline ex-lead stays registered with role lead, so two agents again
hold role lead — which forces the amended claim down to registration-only
sequences. -/
theorem two_agents_hold_lead_role :
    ((mapGet (run (initState 60000) twoLeadOps).agents "a1").map Agent.role = some .lead ∧
     (mapGet (run (initState 60000) twoLeadOps).agents "a2").map Agent.role = some .lead ∧
     ("a1" : String) ≠ "a2") ∧
    (sweepPromotedOps.all (fun op => !(requestsLeadRole op)) = true ∧
     (mapGet (run (initState 60000) sweepPromotedOps).agents "a1").map Agent.role = some .lead ∧
     (mapGet (run (initState 60000) sweepPromotedOps).agents "a2").map Agent.role = some .lead ∧
     leadRoleCount (run (initState 60000) sweepPromotedOps).agents = 2) :=
  ⟨⟨rfl, rfl, by decide⟩, ⟨rfl, rfl, rfl, rfl⟩⟩

/-- The agents map produced by `registerAgent`, spelled out. -/
theorem registerAgent_agents_eq (env : Env) (s : SMState) (id tool : String)
    (role : AgentRole) (caps : List String) :
    ((registerAgent env s id tool role caps).1).agents =
      (if !(truthyStr s.lead_agent) && (mapSet s.agents id (freshAgent env id tool role caps)).length == 1 then
        mapSet (mapSet s.agents id (freshAgent env id tool role caps)) id
          { freshAgent env id tool role caps with role := .lead }
      else mapSet s.agents id (freshAgent env id tool role caps)) := by
  by_cases hf : (!(truthyStr s.lead_agent) &&
      (mapSet s.agents id (freshAgent env id tool role caps)).length == 1) = true
  · simp [registerAgent, registerAgentMutate, appendEvent, hf]
  · simp [registerAgent, registerAgentMutate, appendEvent, hf]

/-- Lead-role count of a cons cell. -/
theorem leadRoleCount_cons (kv : String × Agent) (rest : JsMap Agent) :
    leadRoleCount (kv :: rest) =
      (if kv.2.role = AgentRole.lead then 1 else 0) + leadRoleCount rest := by
  by_cases h : kv.2.role = AgentRole.lead <;>
    simp [leadRoleCount, List.filter_cons, h, Nat.add_comm]

/-- Inserting an agent whose role is not lead cannot raise the lead-role
count. -/
theorem leadRoleCount_mapSet_le (m : JsMap Agent) (k : String) (v : Agent)
    (hv : v.role ≠ .lead) : leadRoleCount (mapSet m k v) ≤ leadRoleCount m := by
  induction m with
  | nil =>
    rw [show mapSet [] k v = [(k, v)] from rfl, leadRoleCount_cons]
    simp [leadRoleCount, hv]
  | cons kv rest ih =>
    obtain ⟨k3, v3⟩ := kv
    by_cases h3 : k3 = k
    · rw [show mapSet ((k3, v3) :: rest) k v = (k, v) :: rest from by simp [mapSet, h3]]
      rw [leadRoleCount_cons, leadRoleCount_cons]
      simp only [hv, if_false]
      by_cases h4 : v3.role = AgentRole.lead <;> simp [h4, hv]
    · rw [show mapSet ((k3, v3) :: rest) k v = (k3, v3) :: mapSet rest k v from by
        simp [mapSet, h3]]
      rw [leadRoleCount_cons, leadRoleCount_cons]
      exact Nat.add_le_add_left ih _

/-- One non-lead registration keeps the lead-role count at most one: the
forced-lead branch only fires when the map is exactly the fresh singleton. -/
theorem registerAgent_leadRoleCount (env : Env) (s : SMState) (id tool : String)
    (role : AgentRole) (caps : List String) (hrole : role ≠ .lead)
    (hs : leadRoleCount s.agents ≤ 1) :
    leadRoleCount ((registerAgent env s id tool role caps).1).agents ≤ 1 := by
  rw [registerAgent_agents_eq]
  by_cases hf : (!(truthyStr s.lead_agent) &&
      (mapSet s.agents id (freshAgent env id tool role caps)).length == 1) = true
  · rw [if_pos hf]
    have hlen : (mapSet s.agents id (freshAgent env id tool role caps)).length = 1 := by
      have h2 := (Bool.and_eq_true _ _).mp hf
      simpa using h2.2
    rw [mapSet_singleton_of_length_one _ _ _ hlen]
    rw [show mapSet [(id, freshAgent env id tool role caps)] id
        { freshAgent env id tool role caps with role := .lead } =
        [(id, { freshAgent env id tool role caps with role := .lead })] from by
      simp [mapSet]]
    rw [leadRoleCount_cons]
    simp [leadRoleCount]
  · rw [if_neg hf]
    have h1 := leadRoleCount_mapSet_le s.agents id (freshAgent env id tool role caps) hrole
    exact le_trans h1 hs

/-- Predicate: `op` is a `registerAgent` call that does not request role lead. -/
def RegisterNonLead (op : Op) : Prop :=
  match op with
  | .register _ _ _ role _ => role ≠ .lead
  | _ => False

theorem run_leadRoleCount (ops : List Op) : ∀ s : SMState,
    (∀ op ∈ ops, RegisterNonLead op) → leadRoleCount s.agents ≤ 1 →
    leadRoleCount (run s ops).agents ≤ 1 := by
  induction ops with
  | nil => intro s _ hs; exact hs
  | cons op rest ih =>
    intro s hops hs
    have hop : RegisterNonLead op := hops op (List.mem_cons_self op rest)
    have hrest : ∀ op2 ∈ rest, RegisterNonLead op2 :=
      fun op2 h2 => hops op2 (List.mem_cons_of_mem op h2)
    cases op with
    | register env id tool role caps =>
      have hstep : run s (.register env id tool role caps :: rest) =
          run ((registerAgent env s id tool role caps).1) rest := rfl
      rw [hstep]
      exact ih _ hrest (registerAgent_leadRoleCount env s id tool role caps hop hs)
    | remove env id => exact (hop : False).elim
    | beat env id => exact (hop : False).elim
    | setStatus env id status => exact (hop : False).elim
    | sweep env => exact (hop : False).elim
    | claim env path agentId taskId => exact (hop : False).elim
    | release env path agentId => exact (hop : False).elim
    | lock env path agentId => exact (hop : False).elim
    | detect env path modifyingAgent => exact (hop : False).elim
    | resolve env path resolution resolvedBy => exact (hop : False).elim
    | newTask env title description assigned_to assigned_by resources depends_on =>
        exact (hop : False).elim
    | setTaskStatus env taskId status agentId => exact (hop : False).elim
    | newHandoff env from_agent to_agent task_id summary fm fc context blockers =>
        exact (hop : False).elim
    | accept env handoffId agentId => exact (hop : False).elim
    | reject env handoffId agentId reasonText => exact (hop : False).elim

/-- Claim C4 as amended: in every state reached from the empty state by a
sequence consisting solely of `registerAgent` calls in which no caller
requests role lead, at most one registered agent holds role lead.  Both
restrictions are forced by the counterexample: a requested lead role is
honored even when a lead already exists, and once the dead-agent sweep is
allowed, its promotion pass crowns a second role-lead agent beside the
offline ex-lead without any requested lead role. -/
theorem register_only_at_most_one_lead (t : Nat) (ops : List Op)
    (hops : ∀ op ∈ ops, RegisterNonLead op) :
    leadRoleCount (run (initState t) ops).agents ≤ 1 :=
  run_leadRoleCount ops (initState t) hops (by simp [initState, leadRoleCount, List.filter])

/-- Witness for the amended C4 theorem at a concrete two-registration
sequence. -/
theorem register_only_at_most_one_lead_witness :
    leadRoleCount (run (initState 60000)
      [.register (envAt 0) "w1" "claude-code" .worker [],
       .register (envAt 0) "w2" "cursor" .specialist []]).agents ≤ 1 :=
  register_only_at_most_one_lead 60000 _ (by
    intro op hop
    simp only [List.mem_cons, List.mem_singleton] at hop
    rcases hop with h | h | h
    · subst h; simp [RegisterNonLead]
    · subst h; simp [RegisterNonLead]
    · exact absurd h (List.not_mem_nil op))

-- ─── C7: lead promotion on registration ─────────────────────────────────

/-- Claim C7 counterexample: in the reachable state where `a1` is still
registered (offline) and the lead pointer is null, registering `a2` with
requested role worker leaves it a worker and the lead pointer null — the
new agent is not forced to lead, because the source also requires the
agents map to have exactly one entry after insertion. -/
theorem register_with_no_lead_not_forced :
    noLeadState.lead_agent = none ∧
    (mapGet noLeadState.agents "a1").isSome = true ∧
    (registerAgent (envAt 60002) noLeadState "a2" "cursor" .worker []).2.role = .worker ∧
    AgentRole.worker ≠ AgentRole.lead :=
  ⟨rfl, rfl, rfl, by decide⟩

/-- The agent returned by `registerAgent`, spelled out. -/
theorem registerAgent_returned_agent_eq (env : Env) (s : SMState) (id tool : String)
    (role : AgentRole) (caps : List String) :
    (registerAgent env s id tool role caps).2 =
      (if !(truthyStr s.lead_agent) && (mapSet s.agents id (freshAgent env id tool role caps)).length == 1 then
        { freshAgent env id tool role caps with role := .lead }
      else freshAgent env id tool role caps) := by
  by_cases hf : (!(truthyStr s.lead_agent) &&
      (mapSet s.agents id (freshAgent env id tool role caps)).length == 1) = true
  · simp [registerAgent, registerAgentMutate, hf]
  · simp [registerAgent, registerAgentMutate, hf]

/-- The lead pointer after `registerAgent`, spelled out. -/
theorem registerAgent_lead_eq (env : Env) (s : SMState) (id tool : String)
    (role : AgentRole) (caps : List String) :
    ((registerAgent env s id tool role caps).1).lead_agent =
      (if !(truthyStr s.lead_agent) && (mapSet s.agents id (freshAgent env id tool role caps)).length == 1 then
        some id
      else s.lead_agent) := by
  by_cases hf : (!(truthyStr s.lead_agent) &&
      (mapSet s.agents id (freshAgent env id tool role caps)).length == 1) = true
  · simp [registerAgent, registerAgentMutate, appendEvent, hf]
  · simp [registerAgent, registerAgentMutate, appendEvent, hf]

/-- Claim C7 as amended: the newly registered agent is forced to role lead
(and becomes the recorded lead) exactly when the lead pointer is falsy AND
the agents map has exactly one entry after the insertion; whenever the map
has more than that one entry — in particular when other agents are still
registered — the requested role is kept and the lead pointer is untouched,
even if no lead is recorded. -/
theorem registerAgent_forced_lead_condition (env : Env) (s : SMState)
    (id tool : String) (role : AgentRole) (caps : List String) :
    (truthyStr s.lead_agent = false →
      (mapSet s.agents id (freshAgent env id tool role caps)).length = 1 →
      (registerAgent env s id tool role caps).2.role = .lead ∧
      ((registerAgent env s id tool role caps).1).lead_agent = some id) ∧
    ((mapSet s.agents id (freshAgent env id tool role caps)).length ≠ 1 →
      (registerAgent env s id tool role caps).2.role = role ∧
      ((registerAgent env s id tool role caps).1).lead_agent = s.lead_agent) ∧
    (truthyStr s.lead_agent = true →
      (registerAgent env s id tool role caps).2.role = role ∧
      ((registerAgent env s id tool role caps).1).lead_agent = s.lead_agent) := by
  refine ⟨?_, ?_, ?_⟩
  · intro h1 h2
    have hc : (!(truthyStr s.lead_agent) &&
        (mapSet s.agents id (freshAgent env id tool role caps)).length == 1) = true := by
      rw [h1]
      simp [h2]
    rw [registerAgent_returned_agent_eq, registerAgent_lead_eq, if_pos hc, if_pos hc]
    exact ⟨rfl, rfl⟩
  · intro h2
    have hc : (!(truthyStr s.lead_agent) &&
        (mapSet s.agents id (freshAgent env id tool role caps)).length == 1) = false := by
      have : ((mapSet s.agents id (freshAgent env id tool role caps)).length == 1) = false := by
        simp [h2]
      simp [this]
    rw [registerAgent_returned_agent_eq, registerAgent_lead_eq, if_neg (by simp [hc]),
        if_neg (by simp [hc])]
    exact ⟨rfl, rfl⟩
  · intro h1
    have hc : (!(truthyStr s.lead_agent) &&
        (mapSet s.agents id (freshAgent env id tool role caps)).length == 1) = false := by
      simp [h1]
    rw [registerAgent_returned_agent_eq, registerAgent_lead_eq, if_neg (by simp [hc]),
        if_neg (by simp [hc])]
    exact ⟨rfl, rfl⟩

/-- Witness for the amended C7 theorem: the first registration into the
empty state is forced to lead, and a registration into `noLeadState`
(two entries after insertion) keeps its requested role. -/
theorem registerAgent_forced_lead_condition_witness :
    ((registerAgent (envAt 0) (initState 60000) "a1" "claude-code" .worker []).2.role = .lead ∧
      ((registerAgent (envAt 0) (initState 60000) "a1" "claude-code" .worker []).1).lead_agent = some "a1") ∧
    ((registerAgent (envAt 60002) noLeadState "a2" "cursor" .worker []).2.role = .worker ∧
      ((registerAgent (envAt 60002) noLeadState "a2" "cursor" .worker []).1).lead_agent = noLeadState.lead_agent) :=
  ⟨(registerAgent_forced_lead_condition (envAt 0) (initState 60000) "a1" "claude-code"
      .worker []).1 rfl rfl,
   (registerAgent_forced_lead_condition (envAt 60002) noLeadState "a2" "cursor"
      .worker []).2.1 (by decide)⟩

-- ─── C5: operations on a conflicted resource ────────────────────────────

/-- Claim C5 counterexample: in the reachable state where `x.ts` is
conflicted, a single `lockResource` call by the lead `a1` transitions it
directly to locked — without passing through `resolveConflict`. -/
theorem lockResource_conflicted_to_locked :
    (mapGet conflictedState.resources "x.ts").map Resource.state = some .conflicted ∧
    conflictedState.lead_agent = some "a1" ∧
    (lockResource (envAt 1) conflictedState "x.ts" "a1").2 = true ∧
    (mapGet (lockResource (envAt 1) conflictedState "x.ts" "a1").1.resources "x.ts").map
        Resource.state = some .locked :=
  ⟨rfl, rfl, rfl, rfl⟩

/-- Claim C5 as amended: `claimResource` on a conflicted resource is
rejected and leaves the whole state (resource and log) unchanged, for
every caller and prior state; but `lockResource` invoked by the recorded
lead takes a conflicted resource directly to locked. -/
theorem conflicted_resource_claims_rejected (env : Env) (s : SMState)
    (path agentId : String) (taskId : Option String) (r : Resource)
    (hres : mapGet s.resources path = some r) (hc : r.state = .conflicted) :
    ((claimResource env s path agentId taskId).1 = s ∧
     (claimResource env s path agentId taskId).2.granted = false) ∧
    (s.lead_agent = some agentId →
      (lockResource env s path agentId).2 = true ∧
      ∃ r2, mapGet ((lockResource env s path agentId).1).resources path = some r2 ∧
        r2.state = .locked) := by
  constructor
  · cases hag : mapGet s.agents agentId with
    | none => simp [claimResource, hag]
    | some ag => simp [claimResource, hag, hres, hc]
  · intro hl
    have hguard : (s.lead_agent == some agentId) = true := by simp [hl]
    refine ⟨?_, ?_⟩
    · simp [lockResource, hguard, hres]
    · refine ⟨{ r with state := .locked, owner := some agentId }, ?_, rfl⟩
      simp [lockResource, hguard, hres, mapGet_mapSet]

/-- Witness for the amended C5 theorem at the concrete conflicted state. -/
theorem conflicted_resource_claims_rejected_witness :
    ((claimResource (envAt 1) conflictedState "x.ts" "a1" none).1 = conflictedState ∧
     (claimResource (envAt 1) conflictedState "x.ts" "a1" none).2.granted = false) ∧
    ((lockResource (envAt 1) conflictedState "x.ts" "a1").2 = true ∧
      ∃ r2, mapGet ((lockResource (envAt 1) conflictedState "x.ts" "a1").1).resources "x.ts" =
          some r2 ∧ r2.state = .locked) :=
  ⟨(conflicted_resource_claims_rejected (envAt 1) conflictedState "x.ts" "a1" none
      { path := "x.ts", state := .conflicted, owner := some "a2", claimed_at := some 0,
        last_modified_by := none, content_hash := "h" } rfl rfl).1,
   (conflicted_resource_claims_rejected (envAt 1) conflictedState "x.ts" "a1" none
      { path := "x.ts", state := .conflicted, owner := some "a2", claimed_at := some 0,
        last_modified_by := none, content_hash := "h" } rfl rfl).2 rfl⟩

-- ─── C6: the claimResource contract ─────────────────────────────────────

/-- Claim C6: the full case analysis of `claimResource` — unknown agent is
rejected with "Agent not registered" and no state change; a registered
agent auto-creates an unknown path as claimed (with a `resource.claimed`
event), claims a free resource (with a `resource.claimed` event),
re-claims its own claimed resource idempotently with no event, is rejected
with the current owner and a reason naming that owner on a resource
claimed by someone else, and is rejected on locked and conflicted
resources with no state change; the `resource.claimed` event is appended
exactly in the two transition cases. -/
theorem claimResource_contract (env : Env) (s : SMState) (path agentId : String)
    (taskId : Option String) :
    (mapGet s.agents agentId = none →
      claimResource env s path agentId taskId =
        (s, { granted := false, reason := some "Agent not registered" })) ∧
    (mapGet s.agents agentId ≠ none →
      ((mapGet s.resources path = none →
        (claimResource env s path agentId taskId).2.granted = true ∧
        mapGet ((claimResource env s path agentId taskId).1).resources path =
          some { path := path, state := .claimed, owner := some agentId,
                 claimed_at := some env.now, last_modified_by := none,
                 content_hash := env.fileHash path } ∧
        ((claimResource env s path agentId taskId).1).log =
          s.log ++ [{ timestamp := env.now, agent_id := agentId,
                      action := .resource_claimed, resource := some path,
                      task_id := taskId,
                      metadata := [("initial_claim", .boolV true)] }]) ∧
      (∀ r, mapGet s.resources path = some r →
        (r.state = .free →
          (claimResource env s path agentId taskId).2.granted = true ∧
          mapGet ((claimResource env s path agentId taskId).1).resources path =
            some { r with
                     state := .claimed, owner := some agentId,
                     claimed_at := some env.now } ∧
          ((claimResource env s path agentId taskId).1).log =
            s.log ++ [{ timestamp := env.now, agent_id := agentId,
                        action := .resource_claimed, resource := some path,
                        task_id := taskId }]) ∧
        (r.state = .claimed → r.owner = some agentId →
          claimResource env s path agentId taskId = (s, { granted := true })) ∧
        (r.state = .claimed → r.owner ≠ some agentId →
          claimResource env s path agentId taskId =
            (s, { granted := false, owner := r.owner,
                  reason := some ("Resource claimed by " ++ ownerDisplay r.owner) })) ∧
        (r.state = .locked →
          claimResource env s path agentId taskId =
            (s, { granted := false, owner := r.owner,
                  reason := some ("Resource locked by lead agent ("
                    ++ ownerDisplay r.owner ++ ")") })) ∧
        (r.state = .conflicted →
          claimResource env s path agentId taskId =
            (s, { granted := false,
                  reason := some "Resource is in conflict state — resolve conflict first" }))))) := by
  constructor
  · intro h
    simp [claimResource, h]
  · intro h
    cases hag : mapGet s.agents agentId with
    | none => exact absurd hag h
    | some ag =>
      constructor
      · intro hres
        refine ⟨?_, ?_, ?_⟩ <;> simp [claimResource, hag, hres, appendEvent, mapGet_mapSet]
      · intro r hres
        refine ⟨?_, ?_, ?_, ?_, ?_⟩
        · intro hstate
          refine ⟨?_, ?_, ?_⟩ <;>
            simp [claimResource, hag, hres, hstate, appendEvent, mapGet_mapSet]
        · intro hstate howner
          have hb : (r.owner == some agentId) = true := by simp [howner]
          simp [claimResource, hag, hres, hstate, hb]
        · intro hstate howner
          have hb : (r.owner == some agentId) = false := by simp [howner]
          simp [claimResource, hag, hres, hstate, hb]
        · intro hstate
          simp [claimResource, hag, hres, hstate]
        · intro hstate
          simp [claimResource, hag, hres, hstate]

/-- Witness for the C6 contract: the unknown-agent rejection from the
empty state, and the idempotent re-claim of `f1` by its owner `a1`. -/
theorem claimResource_contract_witness :
    claimResource (envAt 0) (initState 60000) "f.ts" "ghost" none =
      (initState 60000, { granted := false, reason := some "Agent not registered" }) ∧
    claimResource (envAt 3) twoClaimsState "f1" "a1" none =
      (twoClaimsState, { granted := true }) := by
  constructor
  · exact (claimResource_contract (envAt 0) (initState 60000) "f.ts" "ghost" none).1 rfl
  · have h1 := (claimResource_contract (envAt 3) twoClaimsState "f1" "a1" none).2 (by decide)
    have h2 := h1.2
      { path := "f1", state := .claimed, owner := some "a1", claimed_at := some 1,
        last_modified_by := none, content_hash := "h" } rfl
    exact h2.2.1 rfl rfl

-- ─── C1: ownership/state invariant over all reachable states ────────────

/-- The per-resource invariant the code actually maintains: the owner is
non-null exactly on claimed, locked and conflicted resources. -/
def ResOk (r : Resource) : Prop :=
  r.owner ≠ none ↔ (r.state = .claimed ∨ r.state = .locked ∨ r.state = .conflicted)

/-- Every resource retrievable from the map satisfies `ResOk`. -/
def ResMapOk (m : JsMap Resource) : Prop :=
  ∀ p r, mapGet m p = some r → ResOk r

theorem resMapOk_mapSet (m : JsMap Resource) (k : String) (v : Resource)
    (hm : ResMapOk m) (hv : ResOk v) : ResMapOk (mapSet m k v) := by
  intro p r h
  rw [mapGet_mapSet] at h
  by_cases hp : p = k
  · rw [if_pos hp] at h
    injection h with h2
    exact h2 ▸ hv
  · rw [if_neg hp] at h
    exact hm p r h

theorem registerAgent_resources (env : Env) (s : SMState) (id tool : String)
    (role : AgentRole) (caps : List String) :
    ((registerAgent env s id tool role caps).1).resources = s.resources := rfl

theorem heartbeat_resources (env : Env) (s : SMState) (id : String) :
    (heartbeat env s id).resources = s.resources := by
  unfold heartbeat
  cases mapGet s.agents id <;> rfl

theorem updateAgentStatus_resources (env : Env) (s : SMState) (id : String)
    (status : AgentStatus) :
    (updateAgentStatus env s id status).resources = s.resources := by
  unfold updateAgentStatus
  cases mapGet s.agents id <;> rfl

theorem promoteLead_resources (env : Env) (s : SMState) :
    (promoteLead env s).resources = s.resources := by
  unfold promoteLead
  cases leadSort ((s.agents.map Prod.snd).filter (fun a => a.status != .offline)) <;> rfl

theorem deadSweep_resources (env : Env) : ∀ (ids : List String) (acc : SMState × List String),
    ((deadSweep env ids acc).1).resources = acc.1.resources := by
  intro ids
  induction ids with
  | nil => intro acc; rfl
  | cons id rest ih =>
    intro acc
    cases hag : mapGet acc.1.agents id with
    | none => simp only [deadSweep, hag]; exact ih _
    | some agent =>
      by_cases ht : ((env.now : Int) - (agent.last_heartbeat : Int) >
          (acc.1.dead_agent_timeout_ms : Int))
      · simp only [deadSweep, hag, if_pos ht]
        rw [ih]
        rfl
      · simp only [deadSweep, hag, if_neg ht]
        exact ih _

theorem checkDeadAgents_resources (env : Env) (s : SMState) :
    ((checkDeadAgents env s).1).resources = s.resources := by
  simp only [checkDeadAgents]
  split
  · rw [promoteLead_resources, deadSweep_resources]
  · rw [deadSweep_resources]

theorem createTask_resources (env : Env) (s : SMState) (a b : String)
    (c : Option String) (d : String) (e f : List String) :
    ((createTask env s a b c d e f).1).resources = s.resources := rfl

theorem updateTaskStatus_resources (env : Env) (s : SMState) (taskId : String)
    (status : TaskStatus) (agentId : String) :
    ((updateTaskStatus env s taskId status agentId).1).resources = s.resources := by
  unfold updateTaskStatus
  cases mapGet s.tasks taskId <;> rfl

theorem createHandoff_resources (env : Env) (s : SMState) (a : String)
    (b : Option String) (c d : String) (e f : List String) (g : String)
    (h : List String) :
    ((createHandoff env s a b c d e f g h).1).resources = s.resources := rfl

theorem acceptHandoff_resources (env : Env) (s : SMState) (handoffId agentId : String) :
    ((acceptHandoff env s handoffId agentId).1).resources = s.resources := by
  cases hh : mapGet s.handoffs handoffId with
  | none => simp only [acceptHandoff, hh]
  | some handoff =>
    by_cases h : (handoff.status == HandoffStatus.pending) = true
    · simp only [acceptHandoff, hh, if_pos h, appendEvent]
    · simp only [acceptHandoff, hh, if_neg h]

theorem rejectHandoff_resources (env : Env) (s : SMState)
    (handoffId agentId reasonText : String) :
    ((rejectHandoff env s handoffId agentId reasonText).1).resources = s.resources := by
  cases hh : mapGet s.handoffs handoffId with
  | none => simp only [rejectHandoff, hh]
  | some handoff =>
    by_cases h : (handoff.status == HandoffStatus.pending) = true
    · simp only [rejectHandoff, hh, if_pos h, appendEvent]
    · simp only [rejectHandoff, hh, if_neg h]

theorem claimResource_resMapOk (env : Env) (s : SMState) (path agentId : String)
    (taskId : Option String) (hs : ResMapOk s.resources) :
    ResMapOk (((claimResource env s path agentId taskId).1).resources) := by
  cases hag : mapGet s.agents agentId with
  | none => simp only [claimResource, hag]; exact hs
  | some ag =>
    cases hres : mapGet s.resources path with
    | none =>
      simp only [claimResource, hag, hres, appendEvent]
      refine resMapOk_mapSet _ _ _ hs ?_
      simp [ResOk]
    | some r =>
      cases hstate : r.state with
      | free =>
        simp only [claimResource, hag, hres, hstate, appendEvent]
        refine resMapOk_mapSet _ _ _ hs ?_
        simp [ResOk]
      | claimed =>
        simp only [claimResource, hag, hres, hstate]
        split <;> exact hs
      | locked => simp only [claimResource, hag, hres, hstate]; exact hs
      | conflicted => simp only [claimResource, hag, hres, hstate]; exact hs

theorem releaseResource_resMapOk (env : Env) (s : SMState) (path agentId : String)
    (hs : ResMapOk s.resources) :
    ResMapOk (((releaseResource env s path agentId).1).resources) := by
  cases hres : mapGet s.resources path with
  | none => simp only [releaseResource, hres]; exact hs
  | some r =>
    by_cases h : (r.owner == some agentId) = true
    · simp only [releaseResource, hres, if_pos h, appendEvent]
      refine resMapOk_mapSet _ _ _ hs ?_
      simp [ResOk]
    · simp only [releaseResource, hres, if_neg h]; exact hs

theorem lockResource_resMapOk (env : Env) (s : SMState) (path agentId : String)
    (hs : ResMapOk s.resources) :
    ResMapOk (((lockResource env s path agentId).1).resources) := by
  by_cases hl : (s.lead_agent == some agentId) = true
  · cases hres : mapGet s.resources path with
    | none =>
      simp only [lockResource, if_pos hl, hres]
      refine resMapOk_mapSet _ _ _ hs ?_
      simp [ResOk]
    | some r =>
      simp only [lockResource, if_pos hl, hres]
      refine resMapOk_mapSet _ _ _ hs ?_
      simp [ResOk]
  · simp only [lockResource, if_neg hl]; exact hs

theorem detectConflict_resMapOk (env : Env) (s : SMState) (path modifyingAgent : String)
    (hs : ResMapOk s.resources) :
    ResMapOk ((detectConflict env s path modifyingAgent).resources) := by
  cases hres : mapGet s.resources path with
  | none => simp only [detectConflict, hres]; exact hs
  | some r =>
    cases howner : r.owner with
    | none => simp only [detectConflict, hres, howner]; exact hs
    | some ownerId =>
      by_cases hg : (ownerId != "" && ownerId != modifyingAgent) = true
      · simp only [detectConflict, hres, howner, if_pos hg, appendEvent]
        refine resMapOk_mapSet _ _ _ hs ?_
        simp [ResOk, howner]
      · simp only [detectConflict, hres, howner, if_neg hg]; exact hs

theorem resolveConflict_resMapOk (env : Env) (s : SMState) (path : String)
    (resolution : Resolution) (resolvedBy : String) (hs : ResMapOk s.resources) :
    ResMapOk ((resolveConflict env s path resolution resolvedBy).resources) := by
  cases hres : mapGet s.resources path with
  | none => simp only [resolveConflict, hres]; exact hs
  | some r =>
    by_cases h : (r.state == ResourceState.conflicted) = true
    · simp only [resolveConflict, hres, if_pos h, appendEvent]
      refine resMapOk_mapSet _ _ _ hs ?_
      simp [ResOk]
    · simp only [resolveConflict, hres, if_neg h]; exact hs

theorem releaseOwnedLoop_resMapOk (env : Env) (agentId : String) :
    ∀ (paths : List String) (s : SMState), ResMapOk s.resources →
    ResMapOk ((releaseOwnedLoop env agentId paths s).resources) := by
  intro paths
  induction paths with
  | nil => intro s hs; exact hs
  | cons p rest ih =>
    intro s hs
    cases hres : mapGet s.resources p with
    | none => simp only [releaseOwnedLoop, hres]; exact ih s hs
    | some r =>
      by_cases h : (r.owner == some agentId) = true
      · simp only [releaseOwnedLoop, hres, if_pos h]
        exact ih _ (releaseResource_resMapOk env s p agentId hs)
      · simp only [releaseOwnedLoop, hres, if_neg h]
        exact ih s hs

theorem removeAgent_resMapOk (env : Env) (s : SMState) (agentId : String)
    (hs : ResMapOk s.resources) :
    ResMapOk ((removeAgent env s agentId).resources) := by
  cases hag : mapGet s.agents agentId with
  | none => simp only [removeAgent, hag]; exact hs
  | some ag =>
    simp only [removeAgent, hag]
    have h1 := releaseOwnedLoop_resMapOk env agentId (s.resources.map Prod.fst) s hs
    split
    · rw [promoteLead_resources]
      exact h1
    · exact h1

theorem exec_resMapOk (s : SMState) (op : Op) (hs : ResMapOk s.resources) :
    ResMapOk ((exec s op).resources) := by
  cases op with
  | register env id tool role caps => rw [exec, registerAgent_resources]; exact hs
  | remove env id => exact removeAgent_resMapOk env s id hs
  | beat env id => rw [exec, heartbeat_resources]; exact hs
  | setStatus env id status => rw [exec, updateAgentStatus_resources]; exact hs
  | sweep env => rw [exec, checkDeadAgents_resources]; exact hs
  | claim env path agentId taskId => exact claimResource_resMapOk env s path agentId taskId hs
  | release env path agentId => exact releaseResource_resMapOk env s path agentId hs
  | lock env path agentId => exact lockResource_resMapOk env s path agentId hs
  | detect env path modifyingAgent => exact detectConflict_resMapOk env s path modifyingAgent hs
  | resolve env path resolution resolvedBy =>
      exact resolveConflict_resMapOk env s path resolution resolvedBy hs
  | newTask env title description assigned_to assigned_by resources depends_on =>
      rw [exec, createTask_resources]; exact hs
  | setTaskStatus env taskId status agentId => rw [exec, updateTaskStatus_resources]; exact hs
  | newHandoff env from_agent to_agent task_id summary fm fc context blockers =>
      rw [exec, createHandoff_resources]; exact hs
  | accept env handoffId agentId => rw [exec, acceptHandoff_resources]; exact hs
  | reject env handoffId agentId reasonText => rw [exec, rejectHandoff_resources]; exact hs

theorem run_resMapOk (ops : List Op) : ∀ s : SMState, ResMapOk s.resources →
    ResMapOk ((run s ops).resources) := by
  induction ops with
  | nil => intro s hs; exact hs
  | cons op rest ih =>
    intro s hs
    exact ih (exec s op) (exec_resMapOk s op hs)

/-- Claim C1 counterexample: in the reachable state built by
`conflictedOps`, resource `x.ts` has a non-null owner while its state is
conflicted — `detectConflict` does not clear the owner — so the claimed
iff between owner non-null and state in claimed/locked fails. -/
theorem conflicted_resource_keeps_owner :
    (mapGet conflictedState.resources "x.ts").map Resource.state = some .conflicted ∧
    (mapGet conflictedState.resources "x.ts").map Resource.owner = some (some "a2") ∧
    ¬ (∀ p r, mapGet conflictedState.resources p = some r →
        ((r.state = .claimed ∨ r.state = .locked) ↔ r.owner ≠ none)) := by
  refine ⟨rfl, rfl, ?_⟩
  intro hall
  have h := hall "x.ts"
    { path := "x.ts", state := .conflicted, owner := some "a2", claimed_at := some 0,
      last_modified_by := none, content_hash := "h" } rfl
  simp at h

/-- Claim C1 as amended: in every state reachable from the empty
projection by any sequence of the public operations, every resource with
state claimed or locked has a non-null owner, and the owner is non-null
exactly when the state is claimed, locked or conflicted (a conflicted
resource keeps its owner until release or resolution). -/
theorem reachable_owner_state_invariant (t : Nat) (ops : List Op) (p : String)
    (r : Resource) (h : mapGet ((run (initState t) ops).resources) p = some r) :
    ((r.state = .claimed ∨ r.state = .locked) → r.owner ≠ none) ∧
    (r.owner ≠ none ↔ (r.state = .claimed ∨ r.state = .locked ∨ r.state = .conflicted)) := by
  have hm : ResMapOk ((run (initState t) ops).resources) :=
    run_resMapOk ops (initState t) (by intro p2 r2 h2; simp [initState, mapGet] at h2)
  have hr := hm p r h
  exact ⟨fun hs => hr.mpr (hs.elim Or.inl (fun h2 => Or.inr (Or.inl h2))), hr⟩

/-- Witness for the amended C1 theorem: the claimed resource `f1` in the
concrete reachable state has a non-null owner. -/
theorem reachable_owner_state_invariant_witness :
    ({ path := "f1", state := .claimed, owner := some "a1", claimed_at := some 1,
       last_modified_by := none, content_hash := "h" } : Resource).owner ≠ none :=
  (reachable_owner_state_invariant 60000 twoClaimsOps "f1" _ rfl).1 (Or.inl rfl)

-- ─── C9: removeAgent cascades releases ──────────────────────────────────

/-- The resource record produced by a successful `releaseResource`. -/
def freedRes (env : Env) (agentId path : String) (r : Resource) : Resource :=
  { r with
      state := .free, owner := none, claimed_at := none,
      last_modified_by := some agentId, content_hash := env.fileHash path }

/-- The current resource at `p` exists and is owned by `agentId`. -/
def ownedBy (m : JsMap Resource) (agentId p : String) : Bool :=
  match mapGet m p with
  | some r => r.owner == some agentId
  | none => false

/-- The paths of the resources owned by `agentId`, in insertion order. -/
def ownedPaths (s : SMState) (agentId : String) : List String :=
  (s.resources.filter (fun pr => pr.2.owner == some agentId)).map Prod.fst

theorem releaseResource_eq (env : Env) (s : SMState) (path agentId : String)
    (r : Resource) (hres : mapGet s.resources path = some r)
    (ho : r.owner = some agentId) :
    releaseResource env s path agentId =
      ({ s with
           resources := mapSet s.resources path (freedRes env agentId path r),
           log := s.log ++ [releasedEvent env path agentId] }, true) := by
  have hb : (r.owner == some agentId) = true := by simp [ho]
  simp only [releaseResource, hres, if_pos hb, appendEvent, freedRes]

theorem releaseOwnedLoop_spec (env : Env) (agentId : String) :
    ∀ (paths : List String) (s : SMState), paths.Nodup →
    ((∀ p, p ∉ paths →
       mapGet ((releaseOwnedLoop env agentId paths s).resources) p = mapGet s.resources p) ∧
     (∀ p, p ∈ paths → ∀ r, mapGet s.resources p = some r → r.owner = some agentId →
       mapGet ((releaseOwnedLoop env agentId paths s).resources) p =
         some (freedRes env agentId p r)) ∧
     (releaseOwnedLoop env agentId paths s).log =
       s.log ++ (paths.filter (fun p => ownedBy s.resources agentId p)).map
         (fun p => releasedEvent env p agentId)) := by
  intro paths
  induction paths with
  | nil =>
    intro s hnd
    refine ⟨fun p _ => rfl, fun p hp => absurd hp (List.not_mem_nil p), ?_⟩
    simp [releaseOwnedLoop]
  | cons p0 rest ih =>
    intro s hnd
    obtain ⟨hp0, hndr⟩ := List.nodup_cons.mp hnd
    cases hres : mapGet s.resources p0 with
    | none =>
      have hstep : releaseOwnedLoop env agentId (p0 :: rest) s =
          releaseOwnedLoop env agentId rest s := by
        simp only [releaseOwnedLoop, hres]
      obtain ⟨hout, howned, hlog⟩ := ih s hndr
      rw [hstep]
      refine ⟨?_, ?_, ?_⟩
      · intro p hp
        exact hout p (fun h2 => hp (List.mem_cons_of_mem _ h2))
      · intro p hp r hr ho
        rcases List.mem_cons.mp hp with h2 | h2
        · subst h2
          rw [hres] at hr
          cases hr
        · exact howned p h2 r hr ho
      · rw [hlog]
        have hb : ownedBy s.resources agentId p0 = false := by
          simp [ownedBy, hres]
        rw [List.filter_cons]
        simp [hb]
    | some r0 =>
      by_cases hown : (r0.owner == some agentId) = true
      · have hro : r0.owner = some agentId := by simpa using hown
        have hstep : releaseOwnedLoop env agentId (p0 :: rest) s =
            releaseOwnedLoop env agentId rest
              { s with
                  resources := mapSet s.resources p0 (freedRes env agentId p0 r0),
                  log := s.log ++ [releasedEvent env p0 agentId] } := by
          simp only [releaseOwnedLoop, hres, if_pos hown,
            releaseResource_eq env s p0 agentId r0 hres hro]
        obtain ⟨hout, howned, hlog⟩ := ih
          { s with
              resources := mapSet s.resources p0 (freedRes env agentId p0 r0),
              log := s.log ++ [releasedEvent env p0 agentId] } hndr
        rw [hstep]
        refine ⟨?_, ?_, ?_⟩
        · intro p hp
          have hpne : p ≠ p0 := fun h2 => hp (h2 ▸ List.mem_cons_self p0 rest)
          rw [hout p (fun h2 => hp (List.mem_cons_of_mem _ h2))]
          show mapGet (mapSet s.resources p0 (freedRes env agentId p0 r0)) p =
            mapGet s.resources p
          rw [mapGet_mapSet, if_neg hpne]
        · intro p hp r hr ho
          rcases List.mem_cons.mp hp with h2 | h2
          · rw [h2] at hr ⊢
            rw [hout p0 hp0]
            show mapGet (mapSet s.resources p0 (freedRes env agentId p0 r0)) p0 = _
            rw [mapGet_mapSet, if_pos rfl]
            rw [hres] at hr
            injection hr with hr2
            rw [hr2]
          · have hpne : p ≠ p0 := fun h3 => hp0 (h3 ▸ h2)
            have hs1p : mapGet (mapSet s.resources p0 (freedRes env agentId p0 r0)) p =
                some r := by
              rw [mapGet_mapSet, if_neg hpne]; exact hr
            exact howned p h2 r hs1p ho
        · rw [hlog]
          have hfilter : rest.filter (fun p =>
              ownedBy (mapSet s.resources p0 (freedRes env agentId p0 r0)) agentId p) =
              rest.filter (fun p => ownedBy s.resources agentId p) := by
            apply List.filter_congr
            intro p hp
            have hpne : p ≠ p0 := fun h3 => hp0 (h3 ▸ hp)
            simp only [ownedBy, mapGet_mapSet, if_neg hpne]
          have hb : ownedBy s.resources agentId p0 = true := by
            simp [ownedBy, hres, hown]
          rw [List.filter_cons]
          simp only [hb, if_true]
          rw [hfilter]
          simp [List.append_assoc]
      · have hstep : releaseOwnedLoop env agentId (p0 :: rest) s =
            releaseOwnedLoop env agentId rest s := by
          simp only [releaseOwnedLoop, hres, if_neg hown]
        obtain ⟨hout, howned, hlog⟩ := ih s hndr
        rw [hstep]
        refine ⟨?_, ?_, ?_⟩
        · intro p hp
          exact hout p (fun h2 => hp (List.mem_cons_of_mem _ h2))
        · intro p hp r hr ho
          rcases List.mem_cons.mp hp with h2 | h2
          · rw [h2] at hr
            rw [hres] at hr
            injection hr with hr2
            rw [← hr2] at ho
            exact absurd (by simp [ho]) hown
          · exact howned p h2 r hr ho
        · rw [hlog]
          have hb : ownedBy s.resources agentId p0 = false := by
            have heq : ownedBy s.resources agentId p0 = (r0.owner == some agentId) := by
              unfold ownedBy
              rw [hres]
            cases hb2 : (r0.owner == some agentId) with
            | true => exact absurd hb2 hown
            | false => rw [heq]; exact hb2
          rw [List.filter_cons]
          simp [hb]

theorem keys_filter_ownedBy (agentId : String) : ∀ (m : JsMap Resource),
    (m.map Prod.fst).Nodup →
    (m.map Prod.fst).filter (fun p => ownedBy m agentId p) =
      (m.filter (fun pr => pr.2.owner == some agentId)).map Prod.fst := by
  intro m
  induction m with
  | nil => intro _; rfl
  | cons qr rest ih =>
    obtain ⟨q, r⟩ := qr
    intro hnd
    have hnd3 : (q :: rest.map Prod.fst).Nodup := hnd
    have hnd2 := List.nodup_cons.mp hnd3
    have hq : q ∉ rest.map Prod.fst := hnd2.1
    have hndr : (rest.map Prod.fst).Nodup := hnd2.2
    have hhead : ownedBy ((q, r) :: rest) agentId q = (r.owner == some agentId) := by
      unfold ownedBy
      rw [show mapGet ((q, r) :: rest) q = some r from by simp [mapGet]]
    have htail : (rest.map Prod.fst).filter (fun p => ownedBy ((q, r) :: rest) agentId p) =
        (rest.map Prod.fst).filter (fun p => ownedBy rest agentId p) := by
      apply List.filter_congr
      intro p hp
      have hpne : q ≠ p := fun h2 => hq (h2 ▸ hp)
      unfold ownedBy
      rw [show mapGet ((q, r) :: rest) p = mapGet rest p from by simp [mapGet, hpne]]
    show ((q :: rest.map Prod.fst).filter (fun p => ownedBy ((q, r) :: rest) agentId p)) = _
    rw [List.filter_cons, List.filter_cons]
    cases hbo : (r.owner == some agentId) with
    | true => simp [hhead, hbo, htail, ih hndr]
    | false => simp [hhead, hbo, htail, ih hndr]

theorem promoteLead_log (env : Env) (s : SMState) :
    ∃ tail, (promoteLead env s).log = s.log ++ tail ∧
      ∀ e ∈ tail, e.action = .authority_decision := by
  cases hc : leadSort ((s.agents.map Prod.snd).filter (fun a => a.status != .offline)) with
  | nil =>
    refine ⟨[], ?_, by simp⟩
    simp [promoteLead, hc]
  | cons newLead restc =>
    refine ⟨[{ timestamp := env.now, agent_id := "system",
               action := .authority_decision,
               metadata := [("type", .str "lead_promotion"), ("new_lead", .str newLead.id),
                            ("reason", .str "previous_lead_departed")] }], ?_, ?_⟩
    · simp [promoteLead, hc, appendEvent]
    · intro e he
      rw [List.mem_singleton] at he
      subst he
      rfl

/-- Claim C9: `removeAgent` of an unregistered id is a complete no-op;
`removeAgent` of a registered agent releases every resource it owns (each
ends free with a null owner, modifier recorded and hash refreshed) and
appends exactly one `resource.released` event per owned resource (in
insertion order) followed by the `agent.left` event; only lead-promotion
`authority.decision` events may follow. -/
theorem removeAgent_contract (env : Env) (s : SMState) (agentId : String)
    (hnd : (s.resources.map Prod.fst).Nodup) :
    (mapGet s.agents agentId = none → removeAgent env s agentId = s) ∧
    (mapGet s.agents agentId ≠ none →
      (∀ p r, mapGet s.resources p = some r → r.owner = some agentId →
        mapGet ((removeAgent env s agentId).resources) p =
          some (freedRes env agentId p r)) ∧
      (∃ tail, (removeAgent env s agentId).log =
          s.log ++ (ownedPaths s agentId).map (fun p => releasedEvent env p agentId) ++
            [leftEvent env agentId] ++ tail ∧
        ∀ e ∈ tail, e.action = .authority_decision)) := by
  constructor
  · intro h
    simp [removeAgent, h]
  · intro h
    cases hag : mapGet s.agents agentId with
    | none => exact absurd hag h
    | some ag =>
      obtain ⟨hout, howned, hlog⟩ :=
        releaseOwnedLoop_spec env agentId (s.resources.map Prod.fst) s hnd
      constructor
      · intro p r hr ho
        have hmem : p ∈ s.resources.map Prod.fst := mapGet_mem_keys _ _ _ hr
        have h1 := howned p hmem r hr ho
        simp only [removeAgent, hag]
        split
        · rw [promoteLead_resources]
          exact h1
        · exact h1
      · simp only [removeAgent, hag]
        split
        · obtain ⟨tail, htail, hta⟩ := promoteLead_log env _
          refine ⟨tail, ?_, hta⟩
          rw [htail]
          show ((releaseOwnedLoop env agentId (s.resources.map Prod.fst) s).log ++
            [leftEvent env agentId]) ++ tail = _
          rw [hlog, keys_filter_ownedBy agentId s.resources hnd]
          simp [ownedPaths, List.append_assoc]
        · refine ⟨[], ?_, by simp⟩
          show (releaseOwnedLoop env agentId (s.resources.map Prod.fst) s).log ++
            [leftEvent env agentId] = _
          rw [hlog, keys_filter_ownedBy agentId s.resources hnd]
          simp [ownedPaths, List.append_assoc]

/-- Witness for the C9 contract: removing `a1`, owner of `f1` and `f2`,
frees `f1` in the concrete scenario. -/
theorem removeAgent_contract_witness :
    mapGet ((removeAgent (envAt 9) twoClaimsState "a1").resources) "f1" =
      some (freedRes (envAt 9) "a1" "f1"
        { path := "f1", state := .claimed, owner := some "a1", claimed_at := some 1,
          last_modified_by := none, content_hash := "h" }) :=
  ((removeAgent_contract (envAt 9) twoClaimsState "a1" (by decide)).2
    (by decide)).1 "f1"
    { path := "f1", state := .claimed, owner := some "a1", claimed_at := some 1,
      last_modified_by := none, content_hash := "h" } rfl rfl

end AgentProtocol
